import Mathlib

/-!
Verification of the struct-message codec layer of `steam/core/msg/structs.py`.

Byte buffers are modelled as `List Nat` (each element one byte, little-endian
multi-byte integers).  Python exceptions raised during (de)serialization are
modelled as a typed error in `Except`:

* `struct.error` raised by `unpack_from` when the buffer is too short is
  `CodecError.bufferUnderrun`;
* `struct.error` raised when a format string is built with a negative repeat
  count (the marketing-message record whose `recordLength` implies a negative
  url width) is `CodecError.badFormatChar`;
* `struct.error` raised by `pack` for an out-of-range argument is
  `CodecError.argumentOutOfRange`;
* `ValueError` raised by `EResult(...)` / `EUniverse(...)` for a value that is
  not a member of the enum is `CodecError.unknownEnumValue`;
* `UnicodeDecodeError` raised by `bytes.decode` is
  `CodecError.unicodeDecodeFailed`.
-/

namespace SteamStructs

/-- Typed decode/encode failures of the codec layer (see the module comment for
the mapping to the Python exceptions raised by `structs.py`). -/
inductive CodecError where
  | bufferUnderrun
  | badFormatChar
  | argumentOutOfRange
  | unknownEnumValue
  | unicodeDecodeFailed
deriving DecidableEq, Repr

/-- Little-endian value of a byte list, as `struct.unpack` computes it. -/
def leNat (bs : List Nat) : Nat := bs.foldr (fun b acc => b + 256 * acc) 0

/-- Little-endian encoding of `v` on `w` bytes, as `struct.pack` emits it. -/
def natToBytes : Nat → Nat → List Nat
  | 0, _ => []
  | w + 1, v => v % 256 :: natToBytes w (v / 256)

/-- The checked read `struct.unpack_from` performs: the whole struct size must
fit in the remaining buffer, otherwise `struct.error` (buffer underrun). -/
def readBytes (data : List Nat) (off n : Nat) : Except CodecError (List Nat) :=
  if off + n ≤ data.length then .ok ((data.drop off).take n) else .error .bufferUnderrun

/-- `struct.unpack_from("<I", data, off)`. -/
def readU32 (data : List Nat) (off : Nat) : Except CodecError Nat :=
  (readBytes data off 4).map leNat

/-! ### UTF-8, modelling Python `str.encode` / `bytes.decode` (strict codec) -/

/-- UTF-8 encoding of one unicode scalar value (Python `chr(n).encode` for a
valid code point), written with `/` and `%` instead of shifts. -/
def utf8EncodeChar (c : Char) : List Nat :=
  let n := c.toNat
  if n < 0x80 then [n]
  else if n < 0x800 then [0xC0 + n / 64, 0x80 + n % 64]
  else if n < 0x10000 then [0xE0 + n / 4096, 0x80 + n / 64 % 64, 0x80 + n % 64]
  else [0xF0 + n / 262144, 0x80 + n / 4096 % 64, 0x80 + n / 64 % 64, 0x80 + n % 64]

/-- UTF-8 encoding of a list of characters. -/
def utf8EncodeList : List Char → List Nat
  | [] => []
  | c :: cs => utf8EncodeChar c ++ utf8EncodeList cs

/-- Python `s.encode("utf-8")`. -/
def utf8Encode (s : String) : List Nat := utf8EncodeList s.data

/-- State machine for Python `bs.decode("utf-8")` with the strict error
handler: `need` continuation bytes are still expected for the code point
partially accumulated in `n`, whose smallest legal value is `minv` (this
rejects overlong forms); stray or missing continuation bytes, overlong forms,
surrogates and values above `0x10FFFF` are rejected. -/
def utf8DecodeAux : List Nat → Nat → Nat → Nat → Option (List Char)
  | [], need, _, _ => if need = 0 then some [] else none
  | b :: bs, need, n, minv =>
    if need = 0 then
      if b < 0x80 then (utf8DecodeAux bs 0 0 0).map (fun cs => Char.ofNat b :: cs)
      else if b < 0xC2 then none
      else if b < 0xE0 then utf8DecodeAux bs 1 (b - 0xC0) 0x80
      else if b < 0xF0 then utf8DecodeAux bs 2 (b - 0xE0) 0x800
      else if b < 0xF5 then utf8DecodeAux bs 3 (b - 0xF0) 0x10000
      else none
    else
      if b < 0x80 ∨ 0xC0 ≤ b then none
      else
        if need = 1 then
          if n * 64 + (b - 0x80) < minv ∨
             (0xD800 ≤ n * 64 + (b - 0x80) ∧ n * 64 + (b - 0x80) ≤ 0xDFFF) ∨
             0x110000 ≤ n * 64 + (b - 0x80) then none
          else (utf8DecodeAux bs 0 0 0).map (fun cs => Char.ofNat (n * 64 + (b - 0x80)) :: cs)
        else utf8DecodeAux bs (need - 1) (n * 64 + (b - 0x80)) minv

/-- Python `bs.decode("utf-8")` (strict): `none` models the raised
`UnicodeDecodeError`. -/
def utf8Decode (l : List Nat) : Option (List Char) := utf8DecodeAux l 0 0 0

/-! ### External enum domains

`EUniverse`, `EResult` and `EMsg` live in `steam/enums`, which is repository
code outside the sources given here. -/

/-- Modelled from the spec: an enum domain is an external integer-keyed domain
"with a lookup-by-value contract that can fail for unknown values"; we model
it by its (decidable) membership function on raw integers. -/
abbrev EnumDomain : Type := Nat → Bool

/-- Modelled from the spec: the value-to-symbol lookup of an enum domain
(Python `EResult(v)` / `EUniverse(v)`), which "can fail for out-of-domain
integers"; the raised `ValueError` is the typed error `unknownEnumValue`. -/
def enumLookup (dom : EnumDomain) (v : Nat) : Except CodecError Nat :=
  if dom v then .ok v else .error .unknownEnumValue

/-- Modelled from the spec: the raw value of the external `EUniverse.Invalid`
member used as the class-level default of `ChannelEncryptRequest.universe`. -/
def EUniverse_Invalid : Nat := 0

/-- Modelled from the spec: the raw value of the external `EResult.Invalid`
member used as the class-level default of the `eresult` fields. -/
def EResult_Invalid : Nat := 0

/-! ### Fixed-layout struct messages -/

/-- Fields of `ChannelEncryptRequest`, with the class-level defaults.  The
source attribute is named `universe`, a Lean keyword, hence `universeVal`. -/
structure ChannelEncryptRequest where
  protocolVersion : Nat := 1
  universeVal : Nat := EUniverse_Invalid
  challenge : List Nat := []
deriving DecidableEq, Repr

/-- `ChannelEncryptRequest.load`: `unpack_from("<II", data)`, then
`EUniverse(universe)`, then `challenge = data[8:]` when `len(data) > 8`. -/
def ChannelEncryptRequest.load (dom : EnumDomain) (data : List Nat) :
    Except CodecError ChannelEncryptRequest :=
  if data.length < 8 then .error .bufferUnderrun
  else
    match enumLookup dom (leNat ((data.drop 4).take 4)) with
    | .error e => .error e
    | .ok u =>
      .ok { protocolVersion := leNat (data.take 4)
            universeVal := u
            challenge := if 8 < data.length then data.drop 8 else [] }

/-- Fields of `ChannelEncryptResponse`, with the class-level defaults
(the source's default `key` is the empty string). -/
structure ChannelEncryptResponse where
  protocolVersion : Nat := 1
  keySize : Nat := 128
  key : List Nat := []
  crc : Nat := 0
deriving DecidableEq, Repr

/-- `ChannelEncryptResponse.load`: `unpack_from("<II128sII", data)`; the final
`u32` is read and discarded. -/
def ChannelEncryptResponse.load (data : List Nat) :
    Except CodecError ChannelEncryptResponse :=
  if data.length < 144 then .error .bufferUnderrun
  else
    .ok { protocolVersion := leNat (data.take 4)
          keySize := leNat ((data.drop 4).take 4)
          key := (data.drop 8).take 128
          crc := leNat ((data.drop 136).take 4) }

/-- Fields of `ChannelEncryptResult`, with the class-level default. -/
structure ChannelEncryptResult where
  eresult : Nat := EResult_Invalid
deriving DecidableEq, Repr

/-- `ChannelEncryptResult.load`: `unpack_from("<I", data)` then
`EResult(result)`. -/
def ChannelEncryptResult.load (dom : EnumDomain) (data : List Nat) :
    Except CodecError ChannelEncryptResult :=
  if data.length < 4 then .error .bufferUnderrun
  else
    match enumLookup dom (leNat (data.take 4)) with
    | .error e => .error e
    | .ok r => .ok { eresult := r }

/-- Fields of `ClientLogOnResponse`, with the class-level default. -/
structure ClientLogOnResponse where
  eresult : Nat := EResult_Invalid
deriving DecidableEq, Repr

/-- `ClientLogOnResponse.load`: `unpack_from("<I", data)` then
`EResult(result)`. -/
def ClientLogOnResponse.load (dom : EnumDomain) (data : List Nat) :
    Except CodecError ClientLogOnResponse :=
  if data.length < 4 then .error .bufferUnderrun
  else
    match enumLookup dom (leNat (data.take 4)) with
    | .error e => .error e
    | .ok r => .ok { eresult := r }

/-- Fields of `ClientVACBanStatus`: the class default defines only `numBans`;
`steamIdChat` is an attribute created by `load`, so an unloaded instance has
none (`none`). -/
structure ClientVACBanStatus where
  numBans : Nat := 0
  steamIdChat : Option Nat := none
deriving DecidableEq, Repr

/-- `ClientVACBanStatus.load`: `unpack_from("<L", data)` into `steamIdChat`. -/
def ClientVACBanStatus.load (data : List Nat) :
    Except CodecError ClientVACBanStatus :=
  if data.length < 4 then .error .bufferUnderrun
  else .ok { numBans := 0, steamIdChat := some (leNat (data.take 4)) }

/-- Fields of `ClientJoinChat`, with the class-level defaults. -/
structure ClientJoinChat where
  steamIdChat : Nat := 0
  isVoiceSpeaker : Bool := false
deriving DecidableEq, Repr

/-- `ClientJoinChat.load`: `unpack_from("<Q?", data)`; `?` maps a nonzero byte
to `True`. -/
def ClientJoinChat.load (data : List Nat) : Except CodecError ClientJoinChat :=
  if data.length < 9 then .error .bufferUnderrun
  else
    .ok { steamIdChat := leNat (data.take 8)
          isVoiceSpeaker := decide (leNat ((data.drop 8).take 1) ≠ 0) }

/-- Fields of `ClientChatMemberInfo`, with the class-level defaults. -/
structure ClientChatMemberInfo where
  steamIdChat : Nat := 0
  type : Nat := 0
  steamIdUserActedOn : Nat := 0
  chatAction : Nat := 0
  steamIdUserActedBy : Nat := 0
deriving DecidableEq, Repr

/-- `ClientChatMemberInfo.load`: `unpack_from("<QIQIQ", data)`. -/
def ClientChatMemberInfo.load (data : List Nat) :
    Except CodecError ClientChatMemberInfo :=
  if data.length < 32 then .error .bufferUnderrun
  else
    .ok { steamIdChat := leNat (data.take 8)
          type := leNat ((data.drop 8).take 4)
          steamIdUserActedOn := leNat ((data.drop 12).take 8)
          chatAction := leNat ((data.drop 20).take 4)
          steamIdUserActedBy := leNat ((data.drop 24).take 8) }

/-- Fields of `ClientChatMsg`, with the class-level defaults. -/
structure ClientChatMsg where
  steamIdChatter : Nat := 0
  steamIdChatRoom : Nat := 0
  ChatMsgType : Nat := 0
  text : String := ""
deriving DecidableEq, Repr

/-- `ClientChatMsg.serialize`: `pack("<QQI", ...)` (which raises
`struct.error` for an out-of-range argument) followed by the UTF-8 encoded
text and a single `0x00` byte. -/
def ClientChatMsg.serialize (m : ClientChatMsg) : Except CodecError (List Nat) :=
  if m.steamIdChatter < 2 ^ 64 ∧ m.steamIdChatRoom < 2 ^ 64 ∧ m.ChatMsgType < 2 ^ 32 then
    .ok (natToBytes 8 m.steamIdChatter ++ natToBytes 8 m.steamIdChatRoom ++
         natToBytes 4 m.ChatMsgType ++ utf8Encode m.text ++ [0])
  else .error .argumentOutOfRange

/-- `ClientChatMsg.load`: `unpack_from("<QQI", data)` then
`text = data[20:-1].decode("utf-8")`. -/
def ClientChatMsg.load (data : List Nat) : Except CodecError ClientChatMsg :=
  if data.length < 20 then .error .bufferUnderrun
  else
    match utf8Decode ((data.drop 20).dropLast) with
    | none => .error .unicodeDecodeFailed
    | some cs =>
      .ok { steamIdChatter := leNat (data.take 8)
            steamIdChatRoom := leNat ((data.drop 8).take 8)
            ChatMsgType := leNat ((data.drop 16).take 4)
            text := String.mk cs }

/-! ### ClientMarketingMessageUpdate2 (variable-record-list codec) -/

/-- Fields of the inner `MarketingMessage` record, with the class-level
defaults (the source's default `url` is the empty string; the wire value is
the raw url bytes `unpack` produces). -/
structure MarketingMessage where
  id : Nat := 0
  url : List Nat := []
  flags : Nat := 0
deriving DecidableEq, Repr

/-- One loop iteration of `ClientMarketingMessageUpdate2.load`, with an
explicit fuel so the function is structurally recursive (`loadMessagesAux_irrel`
below shows any fuel at least `data.length - off` gives the same value, and the
loop in the source terminates because each successful record advances `off` by
`length ≥ 17`).  The body mirrors the source line by line: read the 4-byte
`length` at `off` (`struct.error` underrun if fewer than 4 bytes remain);
`url_length = length - 16`; building the format `"<Q%dssI" % (url_length - 1)`
raises `struct.error` (bad format char) when `url_length - 1 < 0`, i.e.
`length < 17`; `unpack_from` at `off + 4` then needs `8 + (url_length - 1) + 1
+ 4 = length - 4` bytes, i.e. `off + length ≤ len(data)`; the record is `id`
at `off + 4`, the url bytes at `off + 12`, a discarded pad byte, and `flags`
at `off + length - 4`; finally `offset += 8 + url_length + 4`, which together
with the earlier `offset += 4` advances `off` to `off + length`. -/
def loadMessagesAux (data : List Nat) : Nat → Nat →
    Except CodecError (List MarketingMessage × Nat)
  | 0, off => .ok ([], off)
  | fuel + 1, off =>
    if off < data.length then
      if off + 4 ≤ data.length then
        let L := leNat ((data.drop off).take 4)
        if L < 17 then .error .badFormatChar
        else if off + L ≤ data.length then
          let m : MarketingMessage :=
            { id := leNat ((data.drop (off + 4)).take 8)
              url := (data.drop (off + 12)).take (L - 17)
              flags := leNat ((data.drop (off + L - 4)).take 4) }
          match loadMessagesAux data fuel (off + L) with
          | .error e => .error e
          | .ok (ms, fin) => .ok (m :: ms, fin)
        else .error .bufferUnderrun
      else .error .bufferUnderrun
    else .ok ([], off)

/-- The `while offset < len(data)` loop of `ClientMarketingMessageUpdate2.load`
started at `off`, returning the parsed records and the final offset. -/
def loadMessages (data : List Nat) (off : Nat) :
    Except CodecError (List MarketingMessage × Nat) :=
  loadMessagesAux data data.length off

/-- Fields of `ClientMarketingMessageUpdate2` (pure view: `messages` by value;
the sharing structure of the `messages` attribute is modelled separately
below). -/
structure ClientMarketingMessageUpdate2 where
  time : Nat := 0
  messages : List MarketingMessage := []
deriving DecidableEq, Repr

/-- `ClientMarketingMessageUpdate2.load`: `unpack_from("<II", data)` reads
`time` and the advisory `count` (never checked), then the record loop runs
from offset 8. -/
def ClientMarketingMessageUpdate2.load (data : List Nat) :
    Except CodecError ClientMarketingMessageUpdate2 :=
  if data.length < 8 then .error .bufferUnderrun
  else
    match loadMessages data 8 with
    | .error e => .error e
    | .ok (ms, _) => .ok { time := leNat (data.take 4), messages := ms }

/-! ### Object identity of the `messages` list

`ClientMarketingMessageUpdate2` has the class-level attribute
`messages = list()`, a single list object allocated when the class is created
and shared by every instance that has not rebound the attribute; `load`
executes `self.messages = list()`, binding the instance attribute to a freshly
allocated list.  To state the aliasing claims we model list identity
explicitly: a store of list objects indexed by allocation order, where
allocating appends and `list.append` mutation is `List.set` at a reference. -/

/-- Store of `list` objects of `MarketingMessage`; a reference is an index. -/
abbrev Store : Type := List (List MarketingMessage)

/-- The reference of the class-level `messages = list()` object, allocated at
class-creation time as the first cell of the store. -/
def classMessagesRef : Nat := 0

/-- The store right after class creation: only the class-level empty list. -/
def initialStore : Store := [[]]

/-- Attribute state of one `ClientMarketingMessageUpdate2` instance:
`messagesRef` is the instance's own `messages` binding when present
(`load` sets it), otherwise attribute lookup falls back to the class. -/
structure MMU2Instance where
  time : Nat := 0
  messagesRef : Option Nat := none
deriving DecidableEq, Repr

/-- Python attribute lookup `self.messages`: the instance binding when `load`
has created one, else the class-level list object. -/
def MMU2Instance.messagesOf (s : MMU2Instance) : Nat :=
  s.messagesRef.getD classMessagesRef

/-- `load` at the store level: on success `self.messages = list()` allocates a
fresh list object (reference `σ.length`), which the loop then fills with the
parsed records; on `struct.error` the instance attributes are untouched. -/
def MMU2Instance.loadH (σ : Store) (data : List Nat) :
    Except CodecError (MMU2Instance × Store) :=
  match ClientMarketingMessageUpdate2.load data with
  | .error e => .error e
  | .ok r => .ok ({ time := r.time, messagesRef := some σ.length }, σ ++ [r.messages])

/-- `StructMessage.__init__` at the store level: `if data: self.load(data)` —
a `None` or empty buffer is falsy, so `load` is skipped and the instance keeps
the class-level defaults (in particular the shared class-level list). -/
def MMU2Instance.initH (σ : Store) (data : Option (List Nat)) :
    Except CodecError (MMU2Instance × Store) :=
  match data with
  | none => .ok ({ time := 0, messagesRef := none }, σ)
  | some d =>
    if d.isEmpty then .ok ({ time := 0, messagesRef := none }, σ)
    else MMU2Instance.loadH σ d

/-! ### Constructor (`StructMessage.__init__`) for the pure views -/

/-- `StructMessage.__init__(self, data=None)`: `if data: self.load(data)`; an
empty buffer is falsy, so the message keeps the class-level defaults. -/
def structInit {α : Type} (load : List Nat → Except CodecError α) (dflt : α)
    (data : List Nat) : Except CodecError α :=
  if data.isEmpty then .ok dflt else load data

/-- `ChannelEncryptRequest(data)`. -/
def ChannelEncryptRequest.init (dom : EnumDomain) : List Nat → Except CodecError ChannelEncryptRequest :=
  structInit (ChannelEncryptRequest.load dom) {}

/-- `ChannelEncryptResponse(data)`. -/
def ChannelEncryptResponse.init : List Nat → Except CodecError ChannelEncryptResponse :=
  structInit ChannelEncryptResponse.load {}

/-- `ChannelEncryptResult(data)`. -/
def ChannelEncryptResult.init (dom : EnumDomain) : List Nat → Except CodecError ChannelEncryptResult :=
  structInit (ChannelEncryptResult.load dom) {}

/-- `ClientLogOnResponse(data)`. -/
def ClientLogOnResponse.init (dom : EnumDomain) : List Nat → Except CodecError ClientLogOnResponse :=
  structInit (ClientLogOnResponse.load dom) {}

/-- `ClientVACBanStatus(data)`. -/
def ClientVACBanStatus.init : List Nat → Except CodecError ClientVACBanStatus :=
  structInit ClientVACBanStatus.load {}

/-- `ClientChatMsg(data)`. -/
def ClientChatMsg.init : List Nat → Except CodecError ClientChatMsg :=
  structInit ClientChatMsg.load {}

/-- `ClientJoinChat(data)`. -/
def ClientJoinChat.init : List Nat → Except CodecError ClientJoinChat :=
  structInit ClientJoinChat.load {}

/-- `ClientChatMemberInfo(data)`. -/
def ClientChatMemberInfo.init : List Nat → Except CodecError ClientChatMemberInfo :=
  structInit ClientChatMemberInfo.load {}

/-- `ClientMarketingMessageUpdate2(data)` (pure view). -/
def ClientMarketingMessageUpdate2.init : List Nat → Except CodecError ClientMarketingMessageUpdate2 :=
  structInit ClientMarketingMessageUpdate2.load {}

/-! ### The message-type registry -/

/-- The registered codecs: the `StructMessage` subclasses of the source. -/
inductive Codec where
  | channelEncryptRequest
  | channelEncryptResponse
  | channelEncryptResult
  | clientLogOnResponse
  | clientVACBanStatus
  | clientChatMsg
  | clientJoinChat
  | clientChatMemberInfo
  | clientMarketingMessageUpdate2
deriving DecidableEq, Repr

/-- The `_emsg_map` dict, as a map from raw message-type identifiers. -/
abbrev Registry : Type := Nat → Option Codec

/-- The empty `_emsg_map = dict()`. -/
def emptyRegistry : Registry := fun _ => none

/-- `StructMessageMeta.__new__` ends in `_emsg_map[EMsg[name]] = cls`: a dict
assignment, which installs or overwrites the entry for that identifier. -/
def register (m : Registry) (id : Nat) (c : Codec) : Registry :=
  fun k => if k = id then some c else m k

/-- `get_struct(emsg)`: `_emsg_map.get(emsg, None)`. -/
def get_struct (m : Registry) (id : Nat) : Option Codec := m id

/-! ### Concrete buffers used by counterexamples and witnesses -/

/-- A well-formed marketing-message buffer: `time = 0`, `declaredCount = 1`,
one record with `recordLength = 18`, `id = 1`, url `"a"`, `flags = 0`;
26 bytes in total, and `8 + recordLength = 26` exactly. -/
def oneRecordBuf : List Nat :=
  [0, 0, 0, 0, 1, 0, 0, 0,
   18, 0, 0, 0, 1, 0, 0, 0, 0, 0, 0, 0, 97, 0, 0, 0, 0, 0]

/-- A malformed marketing-message buffer: the record at offset 8 declares
`recordLength = 5`, so `textFieldWidth = 5 - 16 < 1`. -/
def shortRecordBuf : List Nat :=
  [0, 0, 0, 0, 1, 0, 0, 0, 5, 0, 0, 0]

/-- The spec's happy-path buffer: `time = 100`, `declaredCount = 2`, records
`id = 1` / url `"a"` / `flags = 0` and `id = 2` / url `"bb"` / `flags = 5`,
each with `recordLength = 16 + len(url) + 1`; 45 bytes in total. -/
def happyBuf : List Nat :=
  [100, 0, 0, 0, 2, 0, 0, 0,
   18, 0, 0, 0, 1, 0, 0, 0, 0, 0, 0, 0, 97, 0, 0, 0, 0, 0,
   19, 0, 0, 0, 2, 0, 0, 0, 0, 0, 0, 0, 98, 98, 0, 5, 0, 0, 0]

/-- A minimal header-only marketing-message buffer (no records). -/
def headerOnlyBuf : List Nat := [0, 0, 0, 0, 0, 0, 0, 0]

/-- A concrete chat message whose text mixes 1-, 2-, 3- and 4-byte UTF-8
characters. -/
def chatMsgSample : ClientChatMsg :=
  { steamIdChatter := 20, steamIdChatRoom := 30, ChatMsgType := 1, text := "aé☃𐍈" }

/-! ### Helper lemmas -/

theorem natToBytes_length (w v : Nat) : (natToBytes w v).length = w := by
  induction w generalizing v with
  | zero => rfl
  | succ w ih => simp [natToBytes, ih]

theorem char_toNat_valid (c : Char) :
    c.toNat < 0xD800 ∨ (0xDFFF < c.toNat ∧ c.toNat < 0x110000) := c.valid

theorem utf8DecodeAux_cons (b : Nat) (bs : List Nat) (need n minv : Nat) :
    utf8DecodeAux (b :: bs) need n minv =
      (if need = 0 then
        if b < 0x80 then (utf8DecodeAux bs 0 0 0).map (fun cs => Char.ofNat b :: cs)
        else if b < 0xC2 then none
        else if b < 0xE0 then utf8DecodeAux bs 1 (b - 0xC0) 0x80
        else if b < 0xF0 then utf8DecodeAux bs 2 (b - 0xE0) 0x800
        else if b < 0xF5 then utf8DecodeAux bs 3 (b - 0xF0) 0x10000
        else none
      else
        if b < 0x80 ∨ 0xC0 ≤ b then none
        else
          if need = 1 then
            if n * 64 + (b - 0x80) < minv ∨
               (0xD800 ≤ n * 64 + (b - 0x80) ∧ n * 64 + (b - 0x80) ≤ 0xDFFF) ∨
               0x110000 ≤ n * 64 + (b - 0x80) then none
            else (utf8DecodeAux bs 0 0 0).map (fun cs => Char.ofNat (n * 64 + (b - 0x80)) :: cs)
          else utf8DecodeAux bs (need - 1) (n * 64 + (b - 0x80)) minv) := rfl

theorem utf8Decode_encodeChar (c : Char) (rest : List Nat) :
    utf8Decode (utf8EncodeChar c ++ rest) =
      (utf8Decode rest).map (fun cs => c :: cs) := by
  have hv := char_toNat_valid c
  have hofn : Char.ofNat c.toNat = c := Char.ofNat_toNat c
  rw [utf8Decode, utf8Decode]
  by_cases h1 : c.toNat < 0x80
  · have he : utf8EncodeChar c = [c.toNat] := by
      rw [utf8EncodeChar]; simp only [if_pos h1]
    rw [he, List.cons_append, List.nil_append]
    rw [utf8DecodeAux_cons, if_pos rfl, if_pos h1, hofn]
  · by_cases h2 : c.toNat < 0x800
    · have he : utf8EncodeChar c = [0xC0 + c.toNat / 64, 0x80 + c.toNat % 64] := by
        rw [utf8EncodeChar]; simp only [if_neg h1, if_pos h2]
      rw [he, List.cons_append, List.cons_append, List.nil_append]
      rw [utf8DecodeAux_cons, if_pos rfl, if_neg (by omega), if_neg (by omega),
        if_pos (by omega)]
      rw [utf8DecodeAux_cons, if_neg (by omega), if_neg (by omega), if_pos rfl,
        if_neg (by omega)]
      have harith : (0xC0 + c.toNat / 64 - 0xC0) * 64 + (0x80 + c.toNat % 64 - 0x80) =
          c.toNat := by omega
      rw [harith, hofn]
    · by_cases h3 : c.toNat < 0x10000
      · have he : utf8EncodeChar c =
            [0xE0 + c.toNat / 4096, 0x80 + c.toNat / 64 % 64, 0x80 + c.toNat % 64] := by
          rw [utf8EncodeChar]; simp only [if_neg h1, if_neg h2, if_pos h3]
        rw [he, List.cons_append, List.cons_append, List.cons_append, List.nil_append]
        rw [utf8DecodeAux_cons, if_pos rfl, if_neg (by omega), if_neg (by omega),
          if_neg (by omega), if_pos (by omega)]
        rw [utf8DecodeAux_cons, if_neg (by omega), if_neg (by omega), if_neg (by omega)]
        rw [utf8DecodeAux_cons, if_neg (by omega), if_neg (by omega), if_pos rfl,
          if_neg (by omega)]
        have harith : ((0xE0 + c.toNat / 4096 - 0xE0) * 64 + (0x80 + c.toNat / 64 % 64 - 0x80)) * 64 +
            (0x80 + c.toNat % 64 - 0x80) = c.toNat := by omega
        rw [harith, hofn]
      · have he : utf8EncodeChar c =
            [0xF0 + c.toNat / 262144, 0x80 + c.toNat / 4096 % 64,
             0x80 + c.toNat / 64 % 64, 0x80 + c.toNat % 64] := by
          rw [utf8EncodeChar]; simp only [if_neg h1, if_neg h2, if_neg h3]
        rw [he, List.cons_append, List.cons_append, List.cons_append, List.cons_append,
          List.nil_append]
        rw [utf8DecodeAux_cons, if_pos rfl, if_neg (by omega), if_neg (by omega),
          if_neg (by omega), if_neg (by omega), if_pos (by omega)]
        rw [utf8DecodeAux_cons, if_neg (by omega), if_neg (by omega), if_neg (by omega)]
        rw [utf8DecodeAux_cons, if_neg (by omega), if_neg (by omega), if_neg (by omega)]
        rw [utf8DecodeAux_cons, if_neg (by omega), if_neg (by omega), if_pos rfl,
          if_neg (by omega)]
        have harith : (((0xF0 + c.toNat / 262144 - 0xF0) * 64 + (0x80 + c.toNat / 4096 % 64 - 0x80)) * 64 +
            (0x80 + c.toNat / 64 % 64 - 0x80)) * 64 + (0x80 + c.toNat % 64 - 0x80) = c.toNat := by
          omega
        rw [harith, hofn]

theorem utf8Decode_encodeList (cs : List Char) :
    utf8Decode (utf8EncodeList cs) = some cs := by
  induction cs with
  | nil => rfl
  | cons c cs ih => rw [utf8EncodeList, utf8Decode_encodeChar, ih]; rfl

theorem utf8Decode_encode (s : String) : utf8Decode (utf8Encode s) = some s.data :=
  utf8Decode_encodeList s.data

theorem loadMessagesAux_irrel (data : List Nat) :
    ∀ f1 f2 off, data.length - off ≤ f1 → data.length - off ≤ f2 →
      loadMessagesAux data f1 off = loadMessagesAux data f2 off := by
  intro f1
  induction f1 with
  | zero =>
    intro f2 off h1 h2
    match f2 with
    | 0 => rfl
    | g + 1 =>
      rw [loadMessagesAux, loadMessagesAux]
      rw [if_neg (by omega)]
  | succ g ih =>
    intro f2 off h1 h2
    match f2 with
    | 0 =>
      rw [loadMessagesAux, loadMessagesAux]
      rw [if_neg (by omega)]
    | k + 1 =>
      rw [loadMessagesAux, loadMessagesAux]
      by_cases hoff : off < data.length
      · rw [if_pos hoff, if_pos hoff]
        by_cases h4 : off + 4 ≤ data.length
        · rw [if_pos h4, if_pos h4]
          by_cases hL : leNat ((data.drop off).take 4) < 17
          · rw [if_pos hL, if_pos hL]
          · rw [if_neg hL, if_neg hL]
            by_cases hB : off + leNat ((data.drop off).take 4) ≤ data.length
            · rw [if_pos hB, if_pos hB]
              rw [ih k (off + leNat ((data.drop off).take 4)) (by omega) (by omega)]
            · rw [if_neg hB, if_neg hB]
        · rw [if_neg h4, if_neg h4]
      · rw [if_neg hoff, if_neg hoff]

theorem loadMessagesAux_final (data : List Nat) :
    ∀ fuel off ms fin, off ≤ data.length → data.length - off ≤ fuel →
      loadMessagesAux data fuel off = .ok (ms, fin) → fin = data.length := by
  intro fuel
  induction fuel with
  | zero =>
    intro off ms fin h1 h2 h3
    rw [loadMessagesAux] at h3
    have : fin = off := by
      cases h3
      rfl
    omega
  | succ g ih =>
    intro off ms fin h1 h2 h3
    rw [loadMessagesAux] at h3
    by_cases hoff : off < data.length
    · rw [if_pos hoff] at h3
      by_cases h4 : off + 4 ≤ data.length
      · rw [if_pos h4] at h3
        by_cases hL : leNat ((data.drop off).take 4) < 17
        · rw [if_pos hL] at h3
          exact absurd h3 (by simp)
        · rw [if_neg hL] at h3
          by_cases hB : off + leNat ((data.drop off).take 4) ≤ data.length
          · rw [if_pos hB] at h3
            match hrec : loadMessagesAux data g (off + leNat ((data.drop off).take 4)) with
            | .error e =>
              rw [hrec] at h3
              exact absurd h3 (by simp)
            | .ok (ms2, fin2) =>
              rw [hrec] at h3
              have hfin : fin = fin2 := by
                cases h3
                rfl
              rw [hfin]
              exact ih (off + leNat ((data.drop off).take 4)) ms2 fin2 hB (by omega) hrec
          · rw [if_neg hB] at h3
            exact absurd h3 (by simp)
      · rw [if_neg h4] at h3
        exact absurd h3 (by simp)
    · rw [if_neg hoff] at h3
      have : fin = off := by
        cases h3
        rfl
      omega

theorem loadMessages_unfold (data : List Nat) (off : Nat) (h : off < data.length) :
    loadMessages data off =
      (if off + 4 ≤ data.length then
        if leNat ((data.drop off).take 4) < 17 then .error .badFormatChar
        else if off + leNat ((data.drop off).take 4) ≤ data.length then
          match loadMessages data (off + leNat ((data.drop off).take 4)) with
          | .error e => .error e
          | .ok (ms, fin) =>
            .ok ({ id := leNat ((data.drop (off + 4)).take 8)
                   url := (data.drop (off + 12)).take (leNat ((data.drop off).take 4) - 17)
                   flags := leNat ((data.drop (off + leNat ((data.drop off).take 4) - 4)).take 4) } :: ms,
                 fin)
        else .error .bufferUnderrun
      else .error .bufferUnderrun) := by
  obtain ⟨g, hg⟩ : ∃ g, data.length = g + 1 := ⟨data.length - 1, by omega⟩
  show loadMessagesAux data data.length off = _
  rw [loadMessagesAux_irrel data data.length (g + 1) off (by omega) (by omega)]
  rw [loadMessagesAux]
  rw [if_pos (by omega)]
  by_cases h4 : off + 4 ≤ data.length
  · rw [if_pos h4, if_pos h4]
    by_cases hL : leNat ((data.drop off).take 4) < 17
    · rw [if_pos hL, if_pos hL]
    · rw [if_neg hL, if_neg hL]
      by_cases hB : off + leNat ((data.drop off).take 4) ≤ data.length
      · rw [if_pos hB, if_pos hB]
        rw [show loadMessagesAux data g (off + leNat ((data.drop off).take 4)) =
            loadMessages data (off + leNat ((data.drop off).take 4)) from
          loadMessagesAux_irrel data g data.length (off + leNat ((data.drop off).take 4))
            (by omega) (by omega)]
      · rw [if_neg hB, if_neg hB]
  · rw [if_neg h4, if_neg h4]

theorem readU32_ok (data : List Nat) (off L : Nat) (h : readU32 data off = .ok L) :
    off + 4 ≤ data.length ∧ L = leNat ((data.drop off).take 4) := by
  rw [readU32, readBytes] at h
  by_cases hc : off + 4 ≤ data.length
  · rw [if_pos hc] at h
    refine ⟨hc, ?_⟩
    simp only [Except.map] at h
    cases h
    rfl
  · rw [if_neg hc] at h
    simp only [Except.map] at h
    exact absurd h (by simp)

/-! ### Claim theorems -/

/-- C1 (amended): in the variable-record-list decode, if the 4-byte
`recordLength` read at the current offset gives `textFieldWidth = recordLength
- 16 < 1`, or gives `offset + recordLength > len(buffer)` (the record spans
`recordLength` bytes in total, its 4-byte length field included, so this is
the exact in-bounds condition), then decode fails with a typed error
(`struct.error`: a bad format char for the negative text width, a buffer
underrun for the bounds case) and never reads past the end of the buffer. -/
theorem C1_malformed_record_fails :
    (∀ data off L, off < data.length → readU32 data off = .ok L →
        (L < 17 ∨ data.length < off + L) →
        loadMessages data off =
          .error (if L < 17 then CodecError.badFormatChar else CodecError.bufferUnderrun)) ∧
    (∀ data L, 8 < data.length → readU32 data 8 = .ok L →
        (L < 17 ∨ data.length < 8 + L) →
        ∃ e, ClientMarketingMessageUpdate2.load data = .error e) := by
  have main : ∀ data off L, off < data.length → readU32 data off = .ok L →
      (L < 17 ∨ data.length < off + L) →
      loadMessages data off =
        .error (if L < 17 then CodecError.badFormatChar else CodecError.bufferUnderrun) := by
    intro data off L hoff hread hbad
    obtain ⟨h4, hLdef⟩ := readU32_ok data off L hread
    rw [loadMessages_unfold data off hoff, if_pos h4, ← hLdef]
    by_cases hL : L < 17
    · rw [if_pos hL, if_pos hL]
    · rw [if_neg hL, if_neg hL]
      have hB : ¬ off + L ≤ data.length := by
        rcases hbad with h | h
        · omega
        · omega
      rw [if_neg hB]
  refine ⟨main, ?_⟩
  intro data L h8 hread hbad
  have hmain := main data 8 L (by omega) hread hbad
  unfold ClientMarketingMessageUpdate2.load
  rw [if_neg (by omega), hmain]
  exact ⟨_, rfl⟩

/-- C1 witness: on `shortRecordBuf` the record at offset 8 declares
`recordLength = 5`, so `textFieldWidth = 5 - 16 < 1` and the decode fails. -/
theorem C1_malformed_record_fails_witness :
    loadMessages shortRecordBuf 8 = .error CodecError.badFormatChar ∧
    (∃ e, ClientMarketingMessageUpdate2.load shortRecordBuf = .error e) := by
  constructor
  · have h := C1_malformed_record_fails.1 shortRecordBuf 8 5 (by decide) rfl
      (Or.inl (by decide))
    simpa using h
  · exact C1_malformed_record_fails.2 shortRecordBuf 5 (by decide) rfl (Or.inl (by decide))

/-- C1 counterexample to the claim as stated: on `oneRecordBuf` the record at
offset 8 has `textFieldWidth = 18 - 16 ≥ 1` but `offset + 4 + recordLength =
8 + 4 + 18 = 30 > 26 = len(buffer)`, so by the claim the decode should fail
with `MalformedVariableRecord`; the code decodes it successfully (a record
occupies `recordLength` bytes in total, not `4 + recordLength`). -/
theorem C1_counterexample :
    readU32 oneRecordBuf 8 = .ok 18 ∧
    1 ≤ 18 - 16 ∧
    oneRecordBuf.length < 8 + 4 + 18 ∧
    ClientMarketingMessageUpdate2.load oneRecordBuf =
      .ok { time := 0, messages := [{ id := 1, url := [97], flags := 0 }] } :=
  ⟨rfl, by decide, by decide, rfl⟩

/-- C3 (amended): after each successfully parsed record the running offset
advances by exactly `recordLength` — the 4 bytes of the length field plus the
`recordLength - 4` bytes of record payload — not by `4 + recordLength`; and
whenever the loop completes successfully it terminates with the final offset
equal to `len(buffer)` exactly. -/
theorem C3_offset_advance :
    (∀ data off L ms fin, off < data.length → readU32 data off = .ok L →
        loadMessages data off = .ok (ms, fin) →
        ∃ m ms2, ms = m :: ms2 ∧ loadMessages data (off + L) = .ok (ms2, fin)) ∧
    (∀ data off ms fin, off ≤ data.length → loadMessages data off = .ok (ms, fin) →
        fin = data.length) := by
  constructor
  · intro data off L ms fin hoff hread hok
    obtain ⟨h4, hLdef⟩ := readU32_ok data off L hread
    rw [loadMessages_unfold data off hoff, if_pos h4, ← hLdef] at hok
    by_cases hL : L < 17
    · rw [if_pos hL] at hok
      exact absurd hok (by simp)
    · rw [if_neg hL] at hok
      by_cases hB : off + L ≤ data.length
      · rw [if_pos hB] at hok
        cases hrec : loadMessages data (off + L) with
        | error e =>
          rw [hrec] at hok
          exact absurd hok (by simp)
        | ok p =>
          obtain ⟨ms2, fin2⟩ := p
          rw [hrec] at hok
          simp only [Except.ok.injEq, Prod.mk.injEq] at hok
          exact ⟨_, ms2, hok.1.symm, by rw [← hok.2]⟩
      · rw [if_neg hB] at hok
        exact absurd hok (by simp)
  · intro data off ms fin h1 h2
    exact loadMessagesAux_final data data.length off ms fin h1 (by omega) h2

/-- C3 witness: on `oneRecordBuf` (one record, `recordLength = 18`, read at
offset 8) the loop continues at offset `8 + 18 = 26` and terminates with the
final offset equal to the buffer length 26. -/
theorem C3_offset_advance_witness :
    (∃ m ms2, [({ id := 1, url := [97], flags := 0 } : MarketingMessage)] = m :: ms2 ∧
        loadMessages oneRecordBuf (8 + 18) = .ok (ms2, 26)) ∧
    (26 : Nat) = oneRecordBuf.length :=
  ⟨C3_offset_advance.1 oneRecordBuf 8 18 [{ id := 1, url := [97], flags := 0 }] 26
      (by decide) rfl rfl,
   C3_offset_advance.2 oneRecordBuf 8 [{ id := 1, url := [97], flags := 0 }] 26
      (by decide) rfl⟩

/-- C3 counterexample to the claim as stated: on `oneRecordBuf` the record at
offset 8 has `recordLength = 18` and the loop terminates at final offset
`26 = 8 + 18` (the whole 26-byte buffer), not at `8 + 4 + 18 = 30`: the
offset does not advance by `4 + recordLength`. -/
theorem C3_counterexample :
    readU32 oneRecordBuf 8 = .ok 18 ∧
    loadMessages oneRecordBuf 8 = .ok ([{ id := 1, url := [97], flags := 0 }], 26) ∧
    oneRecordBuf.length = 26 ∧
    (26 : Nat) ≠ 8 + (4 + 18) :=
  ⟨rfl, rfl, rfl, by decide⟩

/-- C4: decoding the spec's happy-path buffer (`time = 100`,
`declaredCount = 2`, records `id = 1`/url `"a"`/`flags = 0` and
`id = 2`/url `"bb"`/`flags = 5`, each with `recordLength = 16 + len(url) + 1`)
yields a 2-element record list with exactly those field values, `time = 100`,
and the parse consumes the 45-byte buffer exactly to its end.  The `url`
fields hold the raw UTF-8 bytes `unpack` produces, equal to the encodings of
`"a"` and `"bb"`. -/
theorem C4_happy_path :
    ClientMarketingMessageUpdate2.load happyBuf =
      .ok { time := 100,
            messages := [{ id := 1, url := [97], flags := 0 },
                         { id := 2, url := [98, 98], flags := 5 }] } ∧
    loadMessages happyBuf 8 =
      .ok ([{ id := 1, url := [97], flags := 0 },
            { id := 2, url := [98, 98], flags := 5 }], 45) ∧
    happyBuf.length = 45 ∧
    utf8Encode "a" = [97] ∧ utf8Encode "bb" = [98, 98] :=
  ⟨rfl, rfl, rfl, rfl, rfl⟩

/-- C2: every fixed-layout decode of a buffer shorter than the sum of the
declared field widths fails with the typed buffer-underrun `struct.error`
(`ChannelEncryptRequest` 8, `ChannelEncryptResponse` 144,
`ChannelEncryptResult` / `ClientLogOnResponse` / `ClientVACBanStatus` 4,
`ClientJoinChat` 9, `ClientChatMemberInfo` 32, `ClientChatMsg` fixed prefix
20); and for the two cited codecs decode is total on caller-supplied bytes: a
long-enough buffer always yields a value, anything shorter the typed error,
never an unrecoverable crash. -/
theorem C2_underrun_and_total :
    (∀ dom data, data.length < 8 →
        ChannelEncryptRequest.load dom data = .error CodecError.bufferUnderrun) ∧
    (∀ data, data.length < 144 →
        ChannelEncryptResponse.load data = .error CodecError.bufferUnderrun) ∧
    (∀ dom data, data.length < 4 →
        ChannelEncryptResult.load dom data = .error CodecError.bufferUnderrun) ∧
    (∀ dom data, data.length < 4 →
        ClientLogOnResponse.load dom data = .error CodecError.bufferUnderrun) ∧
    (∀ data, data.length < 4 →
        ClientVACBanStatus.load data = .error CodecError.bufferUnderrun) ∧
    (∀ data, data.length < 9 →
        ClientJoinChat.load data = .error CodecError.bufferUnderrun) ∧
    (∀ data, data.length < 32 →
        ClientChatMemberInfo.load data = .error CodecError.bufferUnderrun) ∧
    (∀ data, data.length < 20 →
        ClientChatMsg.load data = .error CodecError.bufferUnderrun) ∧
    (∀ data, 32 ≤ data.length → ∃ v, ClientChatMemberInfo.load data = .ok v) ∧
    (∀ data, 144 ≤ data.length → ∃ v, ChannelEncryptResponse.load data = .ok v) := by
  refine ⟨?_, ?_, ?_, ?_, ?_, ?_, ?_, ?_, ?_, ?_⟩
  · intro dom data h
    unfold ChannelEncryptRequest.load
    rw [if_pos h]
  · intro data h
    unfold ChannelEncryptResponse.load
    rw [if_pos h]
  · intro dom data h
    unfold ChannelEncryptResult.load
    rw [if_pos h]
  · intro dom data h
    unfold ClientLogOnResponse.load
    rw [if_pos h]
  · intro data h
    unfold ClientVACBanStatus.load
    rw [if_pos h]
  · intro data h
    unfold ClientJoinChat.load
    rw [if_pos h]
  · intro data h
    unfold ClientChatMemberInfo.load
    rw [if_pos h]
  · intro data h
    unfold ClientChatMsg.load
    rw [if_pos h]
  · intro data h
    unfold ClientChatMemberInfo.load
    rw [if_neg (by omega)]
    exact ⟨_, rfl⟩
  · intro data h
    unfold ChannelEncryptResponse.load
    rw [if_neg (by omega)]
    exact ⟨_, rfl⟩

/-- C2 witness: the empty buffer underruns `ClientChatMemberInfo` and
`ChannelEncryptResponse`, and a 144-byte zero buffer decodes as an
encrypt-response value. -/
theorem C2_underrun_and_total_witness :
    ClientChatMemberInfo.load [] = .error CodecError.bufferUnderrun ∧
    ChannelEncryptResponse.load [] = .error CodecError.bufferUnderrun ∧
    (∃ v, ChannelEncryptResponse.load (List.replicate 144 0) = .ok v) :=
  ⟨C2_underrun_and_total.2.2.2.2.2.2.1 [] (by decide),
   C2_underrun_and_total.2.1 [] (by decide),
   C2_underrun_and_total.2.2.2.2.2.2.2.2.2 (List.replicate 144 0) (by simp)⟩

/-- C5: `_emsg_map` is a dict, so registering a second codec under an
identifier that already has a registration overwrites the entry, and a
subsequent `get_struct` of that identifier returns the second codec; other
identifiers are unaffected. -/
theorem C5_registry_overwrite (m : Registry) (id : Nat) (c1 c2 : Codec) :
    get_struct (register (register m id c1) id c2) id = some c2 ∧
    ∀ k, k ≠ id → get_struct (register (register m id c1) id c2) k = get_struct m k := by
  constructor
  · unfold get_struct register
    rw [if_pos rfl]
  · intro k hk
    unfold get_struct register
    rw [if_neg hk, if_neg hk]

/-- C7: when a decoded enum-typed field (the result code of
`ChannelEncryptResult` / `ClientLogOnResponse`, the universe of
`ChannelEncryptRequest`) carries an integer that is not a member of the
field's enum domain, the decode surfaces the typed error
`unknownEnumValue` (Python: the `ValueError` raised by `EResult(...)` /
`EUniverse(...)`). -/
theorem C7_unknown_enum_value :
    (∀ dom data v, readU32 data 0 = .ok v → dom v = false →
        ChannelEncryptResult.load dom data = .error CodecError.unknownEnumValue) ∧
    (∀ dom data v, readU32 data 0 = .ok v → dom v = false →
        ClientLogOnResponse.load dom data = .error CodecError.unknownEnumValue) ∧
    (∀ dom data v, 8 ≤ data.length → readU32 data 4 = .ok v → dom v = false →
        ChannelEncryptRequest.load dom data = .error CodecError.unknownEnumValue) := by
  refine ⟨?_, ?_, ?_⟩
  · intro dom data v hread hdom
    obtain ⟨h4, hv⟩ := readU32_ok data 0 v hread
    unfold ChannelEncryptResult.load
    rw [if_neg (by omega)]
    rw [show leNat (data.take 4) = v by rw [hv, List.drop_zero]]
    unfold enumLookup
    rw [hdom]
    rfl
  · intro dom data v hread hdom
    obtain ⟨h4, hv⟩ := readU32_ok data 0 v hread
    unfold ClientLogOnResponse.load
    rw [if_neg (by omega)]
    rw [show leNat (data.take 4) = v by rw [hv, List.drop_zero]]
    unfold enumLookup
    rw [hdom]
    rfl
  · intro dom data v h8 hread hdom
    obtain ⟨h4, hv⟩ := readU32_ok data 4 v hread
    unfold ChannelEncryptRequest.load
    rw [if_neg (by omega)]
    rw [show leNat ((data.drop 4).take 4) = v from hv.symm]
    unfold enumLookup
    rw [hdom]
    rfl

/-- C7 witness: with an empty enum domain, the 4-byte buffer holding 7 fails
result decode and an 8-byte buffer holding universe 7 fails request decode,
both with `unknownEnumValue`. -/
theorem C7_unknown_enum_value_witness :
    ChannelEncryptResult.load (fun _ => false) [7, 0, 0, 0] =
      .error CodecError.unknownEnumValue ∧
    ClientLogOnResponse.load (fun _ => false) [7, 0, 0, 0] =
      .error CodecError.unknownEnumValue ∧
    ChannelEncryptRequest.load (fun _ => false) [1, 0, 0, 0, 7, 0, 0, 0] =
      .error CodecError.unknownEnumValue :=
  ⟨C7_unknown_enum_value.1 (fun _ => false) [7, 0, 0, 0] 7 rfl rfl,
   C7_unknown_enum_value.2.1 (fun _ => false) [7, 0, 0, 0] 7 rfl rfl,
   C7_unknown_enum_value.2.2 (fun _ => false) [1, 0, 0, 0, 7, 0, 0, 0] 7 (by decide) rfl rfl⟩

/-- C6: for every chat message whose text field is a string (non-ASCII UTF-8
characters included, provided the fixed numeric fields are in `pack` range),
`serialize` emits the fixed 20-byte prefix, the UTF-8 encoded text, and
exactly one trailing zero byte; `load` recovers the text as the
`len(bytes) - 20 - 1` bytes following the prefix; and `load (serialize m)`
reproduces the text field identically. -/
theorem C6_chat_text_roundtrip (m : ClientChatMsg)
    (h1 : m.steamIdChatter < 2 ^ 64) (h2 : m.steamIdChatRoom < 2 ^ 64)
    (h3 : m.ChatMsgType < 2 ^ 32) :
    ∃ bytes, m.serialize = .ok bytes ∧
      bytes = natToBytes 8 m.steamIdChatter ++ natToBytes 8 m.steamIdChatRoom ++
              natToBytes 4 m.ChatMsgType ++ utf8Encode m.text ++ [0] ∧
      (bytes.drop 20).dropLast = utf8Encode m.text ∧
      bytes.length - 20 - 1 = (utf8Encode m.text).length ∧
      ∃ m2, ClientChatMsg.load bytes = .ok m2 ∧ m2.text = m.text := by
  have hser : m.serialize =
      .ok (natToBytes 8 m.steamIdChatter ++ natToBytes 8 m.steamIdChatRoom ++
           natToBytes 4 m.ChatMsgType ++ utf8Encode m.text ++ [0]) := by
    unfold ClientChatMsg.serialize
    rw [if_pos ⟨h1, h2, h3⟩]
  have hassoc : natToBytes 8 m.steamIdChatter ++ natToBytes 8 m.steamIdChatRoom ++
      natToBytes 4 m.ChatMsgType ++ utf8Encode m.text ++ [0] =
      (natToBytes 8 m.steamIdChatter ++ natToBytes 8 m.steamIdChatRoom ++
       natToBytes 4 m.ChatMsgType) ++ (utf8Encode m.text ++ [0]) := by
    simp [List.append_assoc]
  have hprelen : (natToBytes 8 m.steamIdChatter ++ natToBytes 8 m.steamIdChatRoom ++
      natToBytes 4 m.ChatMsgType).length = 20 := by
    simp [natToBytes_length]
  have hdrop : (natToBytes 8 m.steamIdChatter ++ natToBytes 8 m.steamIdChatRoom ++
      natToBytes 4 m.ChatMsgType ++ utf8Encode m.text ++ [0]).drop 20 =
      utf8Encode m.text ++ [0] := by
    rw [hassoc]
    exact List.drop_left' hprelen
  have hdroplast : ((natToBytes 8 m.steamIdChatter ++ natToBytes 8 m.steamIdChatRoom ++
      natToBytes 4 m.ChatMsgType ++ utf8Encode m.text ++ [0]).drop 20).dropLast =
      utf8Encode m.text := by
    rw [hdrop]
    exact List.dropLast_concat
  have hlen : (natToBytes 8 m.steamIdChatter ++ natToBytes 8 m.steamIdChatRoom ++
      natToBytes 4 m.ChatMsgType ++ utf8Encode m.text ++ [0]).length =
      20 + (utf8Encode m.text).length + 1 := by
    simp [natToBytes_length]
    omega
  refine ⟨_, hser, rfl, hdroplast, by omega, ?_⟩
  unfold ClientChatMsg.load
  rw [if_neg (by omega), hdroplast, utf8Decode_encode]
  exact ⟨_, rfl, rfl⟩

/-- C6 witness: the round trip at `chatMsgSample`, whose text mixes 1-, 2-,
3- and 4-byte UTF-8 characters. -/
theorem C6_chat_text_roundtrip_witness :
    ∃ bytes, chatMsgSample.serialize = .ok bytes ∧
      bytes = natToBytes 8 chatMsgSample.steamIdChatter ++
              natToBytes 8 chatMsgSample.steamIdChatRoom ++
              natToBytes 4 chatMsgSample.ChatMsgType ++
              utf8Encode chatMsgSample.text ++ [0] ∧
      (bytes.drop 20).dropLast = utf8Encode chatMsgSample.text ∧
      bytes.length - 20 - 1 = (utf8Encode chatMsgSample.text).length ∧
      ∃ m2, ClientChatMsg.load bytes = .ok m2 ∧ m2.text = chatMsgSample.text :=
  C6_chat_text_roundtrip chatMsgSample (by decide) (by decide) (by decide)

/-- C8: each decode produces a fresh, independently-owned record list:
decoding the same buffer twice (threading the object store) binds the two
message objects to distinct list references, so mutating the list one of them
owns leaves the list the other owns untouched. -/
theorem C8_record_list_independence (σ : Store) (data : List Nat)
    (s1 s2 : MMU2Instance) (σ1 σ2 : Store)
    (hl1 : MMU2Instance.loadH σ data = .ok (s1, σ1))
    (hl2 : MMU2Instance.loadH σ1 data = .ok (s2, σ2)) :
    s1.messagesOf ≠ s2.messagesOf ∧
    ∀ v, (σ2.set s1.messagesOf v)[s2.messagesOf]? = σ2[s2.messagesOf]? := by
  unfold MMU2Instance.loadH at hl1 hl2
  cases hload : ClientMarketingMessageUpdate2.load data with
  | error e =>
    rw [hload] at hl1
    exact absurd hl1 (by simp)
  | ok r =>
    rw [hload] at hl1 hl2
    simp only [Except.ok.injEq, Prod.mk.injEq] at hl1 hl2
    obtain ⟨hs1, hσ1⟩ := hl1
    obtain ⟨hs2, hσ2⟩ := hl2
    rw [← hs1, ← hs2]
    unfold MMU2Instance.messagesOf
    simp only [Option.getD_some]
    have hlen : σ.length ≠ σ1.length := by
      rw [← hσ1]
      simp
    refine ⟨hlen, ?_⟩
    intro v
    exact List.getElem?_set_ne hlen

/-- C8 witness: decoding the minimal header-only buffer twice from the
class-creation store yields references 1 and 2, and setting the list at
reference 1 does not change the entry at reference 2. -/
theorem C8_record_list_independence_witness :
    ({ time := 0, messagesRef := some 1 } : MMU2Instance).messagesOf ≠
      ({ time := 0, messagesRef := some 2 } : MMU2Instance).messagesOf ∧
    ∀ v, (([[], [], []] : Store).set
            ({ time := 0, messagesRef := some 1 } : MMU2Instance).messagesOf v)[
            ({ time := 0, messagesRef := some 2 } : MMU2Instance).messagesOf]? =
          ([[], [], []] : Store)[({ time := 0, messagesRef := some 2 } : MMU2Instance).messagesOf]? :=
  C8_record_list_independence initialStore headerOnlyBuf
    { time := 0, messagesRef := some 1 } { time := 0, messagesRef := some 2 }
    [[], []] [[], [], []] rfl rfl

/-- C9: an instance on which `load` has not run — constructed with `None` or
with an empty (falsy) buffer — has its `messages` attribute resolve to the
single class-level list object `classMessagesRef`, the same for every such
unloaded instance; only `load` rebinds the instance attribute, to a freshly
allocated list distinct from the class-level one. -/
theorem C9_class_level_messages_shared :
    (∀ σ s σ2, MMU2Instance.initH σ none = .ok (s, σ2) →
        s.messagesRef = none ∧ s.messagesOf = classMessagesRef ∧ σ2 = σ) ∧
    (∀ σ d s σ2, d.isEmpty = true → MMU2Instance.initH σ (some d) = .ok (s, σ2) →
        s.messagesRef = none ∧ s.messagesOf = classMessagesRef ∧ σ2 = σ) ∧
    (∀ σ data s σ2, 1 ≤ σ.length → MMU2Instance.loadH σ data = .ok (s, σ2) →
        s.messagesRef = some σ.length ∧ s.messagesOf ≠ classMessagesRef) := by
  refine ⟨?_, ?_, ?_⟩
  · intro σ s σ2 h
    unfold MMU2Instance.initH at h
    simp only [Except.ok.injEq, Prod.mk.injEq] at h
    obtain ⟨hs, hσ⟩ := h
    rw [← hs, hσ]
    exact ⟨rfl, rfl, rfl⟩
  · intro σ d s σ2 hd h
    unfold MMU2Instance.initH at h
    dsimp only at h
    rw [if_pos hd] at h
    simp only [Except.ok.injEq, Prod.mk.injEq] at h
    obtain ⟨hs, hσ⟩ := h
    rw [← hs, hσ]
    exact ⟨rfl, rfl, rfl⟩
  · intro σ data s σ2 hσpos h
    unfold MMU2Instance.loadH at h
    cases hload : ClientMarketingMessageUpdate2.load data with
    | error e =>
      rw [hload] at h
      exact absurd h (by simp)
    | ok r =>
      rw [hload] at h
      simp only [Except.ok.injEq, Prod.mk.injEq] at h
      obtain ⟨hs, hσ⟩ := h
      rw [← hs]
      refine ⟨rfl, ?_⟩
      unfold MMU2Instance.messagesOf classMessagesRef
      simp only [Option.getD_some]
      omega

/-- C9 witness: constructing from the class-creation store with `None` keeps
the class-level reference 0; loading the header-only buffer rebinds to the
fresh reference 1. -/
theorem C9_class_level_messages_shared_witness :
    (({ time := 0, messagesRef := none } : MMU2Instance).messagesRef = none ∧
     ({ time := 0, messagesRef := none } : MMU2Instance).messagesOf = classMessagesRef ∧
     initialStore = initialStore) ∧
    (({ time := 0, messagesRef := some 1 } : MMU2Instance).messagesRef =
        some initialStore.length ∧
     ({ time := 0, messagesRef := some 1 } : MMU2Instance).messagesOf ≠ classMessagesRef) :=
  ⟨C9_class_level_messages_shared.1 initialStore { time := 0, messagesRef := none }
      initialStore rfl,
   C9_class_level_messages_shared.2.2 initialStore headerOnlyBuf
      { time := 0, messagesRef := some 1 } [[], []] (by decide) rfl⟩

/-- C10: for every struct message type, constructing a message from an empty
byte buffer skips decoding entirely (`__init__` only calls `load` when `data`
is truthy) and yields the class-default field values, even though `load` on
the same empty buffer would fail with the buffer-underrun `struct.error`. -/
theorem C10_empty_buffer_skips_load :
    (∀ dom, ChannelEncryptRequest.init dom [] = .ok {}) ∧
    ChannelEncryptResponse.init [] = .ok {} ∧
    (∀ dom, ChannelEncryptResult.init dom [] = .ok {}) ∧
    (∀ dom, ClientLogOnResponse.init dom [] = .ok {}) ∧
    ClientVACBanStatus.init [] = .ok {} ∧
    ClientChatMsg.init [] = .ok {} ∧
    ClientJoinChat.init [] = .ok {} ∧
    ClientChatMemberInfo.init [] = .ok {} ∧
    ClientMarketingMessageUpdate2.init [] = .ok {} ∧
    MMU2Instance.initH initialStore (some []) =
      .ok ({ time := 0, messagesRef := none }, initialStore) ∧
    ClientChatMemberInfo.load [] = .error CodecError.bufferUnderrun ∧
    ClientMarketingMessageUpdate2.load [] = .error CodecError.bufferUnderrun :=
  ⟨fun _ => rfl, rfl, fun _ => rfl, fun _ => rfl, rfl, rfl, rfl, rfl, rfl, rfl, rfl, rfl⟩

/-- C5 witness: registering two codecs under identifier 751 in the empty
registry makes lookup return the second, and leaves identifier 598 alone. -/
theorem C5_registry_overwrite_witness :
    get_struct (register (register emptyRegistry 751 Codec.clientMarketingMessageUpdate2)
        751 Codec.clientChatMsg) 751 = some Codec.clientChatMsg ∧
    get_struct (register (register emptyRegistry 751 Codec.clientMarketingMessageUpdate2)
        751 Codec.clientChatMsg) 598 = get_struct emptyRegistry 598 :=
  ⟨(C5_registry_overwrite emptyRegistry 751 Codec.clientMarketingMessageUpdate2
      Codec.clientChatMsg).1,
   (C5_registry_overwrite emptyRegistry 751 Codec.clientMarketingMessageUpdate2
      Codec.clientChatMsg).2 598 (by decide)⟩

end SteamStructs
